import Mathlib

/-!
# Verification of the bxcan frame module

Shallow embedding of `src/frame.rs` (the `Frame`, `FramePriority` and `Data`
types) together with the identifier register `IdReg` and the logical `Id`
type that `frame.rs` consumes. `IdReg`/`Id` are declared outside the given
source file, so they are modelled from the data-model section of the
specification (a single packed unsigned register holding, from most- to
least-significant: the left-aligned 29-bit identifier field, the IDE bit
with extended = 0 / standard = 1, and the RTR bit with data = 0 /
remote = 1; compared as an unsigned integer).

Machine integers are modelled as `Nat`; the register fits in 31 bits by
construction. Rust `Option`/`Result` types are modelled as `Option`; byte
buffers (`[u8; 8]`) are modelled as `List Nat` of length 8.
-/

namespace Bxcan

/-- The logical CAN identifier consumed by `frame.rs` (external `Id` type):
a standard 11-bit or an extended 29-bit identifier value. -/
inductive Id where
| standard (v : Nat)
| extended (v : Nat)
deriving DecidableEq, Repr

/-- Modelled from the spec: the packed identifier register `IdReg` (declared
outside `frame.rs`). A single unsigned integer holding, from most-significant
to least-significant: the 29-bit identifier field (bits 30..2, left-aligned
so a standard id occupies the high 11 bits with the low 18 bits zero), the
IDE bit (bit 1, 0 = extended, 1 = standard), and the RTR bit
(bit 0, 0 = data, 1 = remote). -/
structure IdReg where
reg : Nat
deriving DecidableEq, Repr

namespace IdReg

/-- Modelled from the spec: packs an 11-bit standard identifier into the high
11 bits of the 29-bit identifier field (left-aligned, low 18 bits zero),
IDE = standard (1), RTR = data (0). -/
def new_standard (v : Nat) : IdReg :=
⟨v * 2 ^ 20 + 2⟩

/-- Modelled from the spec: packs a 29-bit extended identifier into the full
identifier field, IDE = extended (0), RTR = data (0). -/
def new_extended (v : Nat) : IdReg :=
⟨v * 2 ^ 2⟩

/-- Modelled from the spec: returns a copy with only the RTR bit (bit 0)
replaced; all other bits untouched. -/
def with_rtr (r : IdReg) (flag : Bool) : IdReg :=
⟨r.reg / 2 * 2 + (if flag then 1 else 0)⟩

/-- Modelled from the spec: reads the RTR bit (bit 0). -/
def rtr (r : IdReg) : Bool :=
r.reg % 2 == 1

/-- Modelled from the spec: reads the IDE bit (bit 1); 0 means extended. -/
def is_extended (r : IdReg) : Bool :=
r.reg / 2 % 2 == 0

/-- Modelled from the spec: complement of `is_extended`. -/
def is_standard (r : IdReg) : Bool :=
!(r.is_extended)

/-- Modelled from the spec: reconstructs the logical `Id` — the top 11 bits
of the identifier field if IDE = standard, the full 29 bits otherwise. -/
def to_id (r : IdReg) : Id :=
if r.is_standard then Id.standard (r.reg / 2 ^ 20) else Id.extended (r.reg / 2 ^ 2)

/-- Modelled from the spec: the total order on `IdReg` is the unsigned
numeric comparison of the full packed register. -/
def cmp (a b : IdReg) : Ordering :=
compare a.reg b.reg

end IdReg

/-- The conversion from a logical `Id` performed inside `Frame::new_data`. -/
def IdReg.fromId : Id → IdReg
| Id.standard v => IdReg.new_standard v
| Id.extended v => IdReg.new_extended v

/-- Rust `Data`: payload of a CAN data frame (`struct Data { len: u8, bytes: [u8; 8] }`). -/
structure Data where
len : Nat
bytes : List Nat
deriving DecidableEq, Repr

namespace Data

/-- Rust `Data::new`: rejects slices longer than 8 bytes, otherwise copies the
slice into the front of a zeroed 8-byte buffer. -/
def new (data : List Nat) : Option Data :=
if data.length > 8 then none
else some { len := data.length, bytes := data ++ List.replicate (8 - data.length) 0 }

/-- Rust `Data::empty`: zero-length payload over a zeroed buffer. -/
def empty : Data :=
{ len := 0, bytes := List.replicate 8 0 }

/-- Rust `Data::is_empty`. -/
def is_empty (d : Data) : Bool :=
d.len == 0

/-- The `Deref`/`AsRef` read view: the buffer bounded to `[0, len)`
(`&self.bytes[..self.len()]`). -/
def deref (d : Data) : List Nat :=
d.bytes.take d.len

/-- Rust `PartialEq for Data`: `self.as_ref() == other.as_ref()` — equality of
the length-bounded views. -/
def beq (a b : Data) : Bool :=
a.deref == b.deref

/-- A single byte store through the `DerefMut`/`AsMut` write view
(`&mut self.bytes[..len]`): the view only exposes indices below `len`,
so a store targets `bytes[i]` with `i < len` and leaves `len` unchanged. -/
def set_via_view (d : Data) (i : Nat) (v : Nat) : Data :=
if i < d.len then { d with bytes := d.bytes.set i v } else d

/-- The `From<[u8; N]>` conversions generated by `data_from_array!` for
`N` in 0..=8: copy the array into the front of a zeroed 8-byte buffer and
set `len` to `N` (here `N` is the length of the input list). -/
def fromArray (arr : List Nat) : Data :=
{ len := arr.length, bytes := arr ++ List.replicate (8 - arr.length) 0 }

/-- The invariant maintained by every public constructor: the valid length
never exceeds the 8-byte capacity of the backing buffer. -/
def WF (d : Data) : Prop :=
d.len ≤ 8 ∧ d.bytes.length = 8

end Data

/-- Rust `FramePriority`: read-only wrapper around the arbitration field,
ordered by delegating entirely to the comparison of `IdReg`. -/
structure FramePriority where
idreg : IdReg
deriving DecidableEq, Repr

/-- Rust `Ord for FramePriority`: `self.0.cmp(&other.0)`. -/
def FramePriority.cmp (a b : FramePriority) : Ordering :=
IdReg.cmp a.idreg b.idreg

/-- Rust `Frame`: a CAN data or remote frame (`struct Frame { id: IdReg, data: Data }`). -/
structure Frame where
id : IdReg
data : Data
deriving DecidableEq, Repr

namespace Frame

/-- Rust `Frame::new_data`: converts the logical id to an `IdReg` and pairs it
with the payload as given. Always succeeds. -/
def new_data (i : Id) (d : Data) : Frame :=
{ id := IdReg.fromId i, data := d }

/-- Rust `Frame::new_remote`: rejects `dlc >= 8`; otherwise builds a data frame
with an empty payload, overrides the `len` field of the payload to `dlc`, and
sets the RTR bit. -/
def new_remote (i : Id) (dlc : Nat) : Option Frame :=
if dlc ≥ 8 then none
else
  let f := new_data i Data.empty
  some { f with data := { f.data with len := dlc }, id := f.id.with_rtr true }

/-- Rust `Frame::is_extended`. -/
def is_extended (f : Frame) : Bool :=
f.id.is_extended

/-- Rust `Frame::is_standard`. -/
def is_standard (f : Frame) : Bool :=
f.id.is_standard

/-- Rust `Frame::is_remote_frame`: reads the RTR bit. -/
def is_remote_frame (f : Frame) : Bool :=
f.id.rtr

/-- Rust `Frame::is_data_frame`: complement of `is_remote_frame`. -/
def is_data_frame (f : Frame) : Bool :=
!(f.is_remote_frame)

/-- Rust `Frame::id()`: the logical identifier via `IdReg::to_id`. -/
def logicalId (f : Frame) : Id :=
f.id.to_id

/-- Rust `Frame::priority()`: wraps a copy of the internal `IdReg`. -/
def priority (f : Frame) : FramePriority :=
⟨f.id⟩

/-- Rust `Frame::dlc()`: returns `data.len()`. -/
def dlc (f : Frame) : Nat :=
f.data.len

/-- Rust `Frame::data()`: the payload only if this is a data frame, `None` for
remote frames. -/
def getData (f : Frame) : Option Data :=
if f.is_data_frame then some f.data else none

end Frame

/-- The MSB-first bit serialization of the low `w` bits of a natural
number: the order in which the packed arbitration field is put on the wire. -/
def natBits : Nat → Nat → List Bool
| 0, _ => []
| w + 1, n => n.testBit w :: natBits w n

/-- The 31 arbitration-field bits of a register, most significant first. -/
def IdReg.bits (r : IdReg) : List Bool :=
natBits 31 r.reg

/-- CAN bus arbitration between two nodes transmitting bit streams MSB
first, dominant = 0 (`false`): the winner is the node that transmits the
dominant level at the first position where the streams differ. `arbWins a b`
holds when the stream `a` wins against `b`. -/
def arbWins : List Bool → List Bool → Bool
| [], _ => false
| _ :: _, [] => false
| a :: as, b :: bs => (!a && b) || (a == b && arbWins as bs)

/-- Bitwise arbitration over `w`-bit MSB-first serializations is exactly the
numeric comparison of the values modulo `2 ^ w`. -/
theorem arbWins_natBits (w : Nat) : ∀ n m : Nat,
    arbWins (natBits w n) (natBits w m) = decide (n % 2 ^ w < m % 2 ^ w) := by
  induction w with
  | zero =>
    intro n m
    simp [natBits, arbWins, Nat.mod_one]
  | succ w ih =>
    intro n m
    have hn : n % 2 ^ (w + 1) = n % 2 ^ w + 2 ^ w * (n / 2 ^ w % 2) := by
      rw [pow_succ]; exact Nat.mod_mul
    have hm : m % 2 ^ (w + 1) = m % 2 ^ w + 2 ^ w * (m / 2 ^ w % 2) := by
      rw [pow_succ]; exact Nat.mod_mul
    have hnlt : n % 2 ^ w < 2 ^ w := Nat.mod_lt _ (Nat.pos_pow_of_pos _ (by norm_num))
    have hmlt : m % 2 ^ w < 2 ^ w := Nat.mod_lt _ (Nat.pos_pow_of_pos _ (by norm_num))
    rcases Nat.mod_two_eq_zero_or_one (n / 2 ^ w) with h1 | h1 <;>
      rcases Nat.mod_two_eq_zero_or_one (m / 2 ^ w) with h2 | h2 <;>
      simp [natBits, arbWins, Nat.testBit_to_div_mod, ih, hn, hm, h1, h2] <;>
      omega

/-- The registers produced for any identifier fit in the 31 arbitration bits. -/
theorem IdReg.fromId_reg_lt (i : Id)
    (hv : match i with | Id.standard v => v < 2 ^ 11 | Id.extended v => v < 2 ^ 29) :
    (IdReg.fromId i).reg < 2 ^ 31 := by
  cases i with
  | standard v =>
    simp only [IdReg.fromId, IdReg.new_standard]
    have : v ≤ 2 ^ 11 - 1 := by omega
    calc v * 2 ^ 20 + 2 ≤ (2 ^ 11 - 1) * 2 ^ 20 + 2 := by
          exact Nat.add_le_add_right (Nat.mul_le_mul_right _ this) 2
    _ < 2 ^ 31 := by norm_num
  | extended v =>
    simp only [IdReg.fromId, IdReg.new_extended]
    have : v ≤ 2 ^ 29 - 1 := by omega
    calc v * 2 ^ 2 ≤ (2 ^ 29 - 1) * 2 ^ 2 := Nat.mul_le_mul_right _ this
    _ < 2 ^ 31 := by norm_num

/-- C1: the comparison of two `FramePriority` values is exactly the unsigned
numeric comparison of the full packed register, and this order is the CAN bus
priority order: a frame compares `lt` (so sorts earlier in ascending order)
precisely when its arbitration field wins bitwise bus arbitration (dominant
bit 0 at the first difference), i.e. numerically smaller register means
higher bus priority. -/
theorem framePriority_cmp_is_bus_priority (p q : FramePriority)
    (hp : p.idreg.reg < 2 ^ 31) (hq : q.idreg.reg < 2 ^ 31) :
    FramePriority.cmp p q = compare p.idreg.reg q.idreg.reg ∧
    (FramePriority.cmp p q = Ordering.lt ↔
      arbWins p.idreg.bits q.idreg.bits = true) := by
  refine ⟨rfl, ?_⟩
  rw [FramePriority.cmp, IdReg.cmp, Nat.compare_eq_lt, IdReg.bits, IdReg.bits,
    arbWins_natBits, Nat.mod_eq_of_lt hp, Nat.mod_eq_of_lt hq]
  simp

/-- Witness for C1 at the registers 2 (standard id 0, data frame) and 4
(extended id 1, data frame). -/
theorem framePriority_cmp_is_bus_priority_witness :
    FramePriority.cmp ⟨⟨2⟩⟩ ⟨⟨4⟩⟩ = compare 2 4 ∧
    (FramePriority.cmp ⟨⟨2⟩⟩ ⟨⟨4⟩⟩ = Ordering.lt ↔
      arbWins (IdReg.bits ⟨2⟩) (IdReg.bits ⟨4⟩) = true) :=
  framePriority_cmp_is_bus_priority ⟨⟨2⟩⟩ ⟨⟨4⟩⟩ (by norm_num) (by norm_num)

/-- C2 counterexample: the extended identifier e = 1 has top 11 bits
1 / 2 ^ 18 = 0, equal to the standard identifier s = 0, yet
`new_extended 1` (register 4) does not compare strictly less than
`new_standard 0` (register 2) — the claim fails whenever the low 18 bits of
the extended identifier are nonzero. -/
theorem extended_below_standard_counterexample :
    (1 : Nat) / 2 ^ 18 = 0 ∧ (1 : Nat) < 2 ^ 29 ∧ (0 : Nat) < 2 ^ 11 ∧
    IdReg.cmp (IdReg.new_extended 1) (IdReg.new_standard 0) ≠ Ordering.lt := by
  refine ⟨by norm_num, by norm_num, by norm_num, ?_⟩
  rw [IdReg.cmp, IdReg.new_extended, IdReg.new_standard]
  decide

/-- C2 amended: for every standard 11-bit identifier s and every extended
29-bit identifier e whose top 11 bits equal s and whose low 18 bits are all
zero (e = s * 2 ^ 18), `new_extended e` compares strictly less than
`new_standard s`. -/
theorem extended_below_standard_of_aligned (s e : Nat) (hs : s < 2 ^ 11)
    (he : e = s * 2 ^ 18) :
    IdReg.cmp (IdReg.new_extended e) (IdReg.new_standard s) = Ordering.lt := by
  subst he
  rw [IdReg.cmp, IdReg.new_extended, IdReg.new_standard, Nat.compare_eq_lt]
  have h : s * 2 ^ 18 * 2 ^ 2 = s * 2 ^ 20 := by ring
  simp only [h]
  omega

/-- Witness for the amended C2 at s = 1, e = 2 ^ 18. -/
theorem extended_below_standard_of_aligned_witness :
    IdReg.cmp (IdReg.new_extended (2 ^ 18)) (IdReg.new_standard 1) = Ordering.lt :=
  extended_below_standard_of_aligned 1 (2 ^ 18) (by norm_num) (by norm_num)

/-- C3: for every identifier, the register with the RTR bit clear (data
frame) compares strictly less than the register with the RTR bit set
(remote frame): at equal identifier and IDE a data frame outranks a remote
frame. -/
theorem data_frame_outranks_remote_frame (i : Id) :
    IdReg.cmp ((IdReg.fromId i).with_rtr false) ((IdReg.fromId i).with_rtr true) =
      Ordering.lt := by
  rw [IdReg.cmp, IdReg.with_rtr, IdReg.with_rtr, Nat.compare_eq_lt]
  simp

/-- C4: register construction is strictly monotone in the identifier value
within each format: for 11-bit values a < b, `new_standard a < new_standard b`,
and for 29-bit values a < b, `new_extended a < new_extended b`. -/
theorem idreg_new_strict_mono (a b : Nat) (hab : a < b) :
    (b < 2 ^ 11 → IdReg.cmp (IdReg.new_standard a) (IdReg.new_standard b) = Ordering.lt) ∧
    (b < 2 ^ 29 → IdReg.cmp (IdReg.new_extended a) (IdReg.new_extended b) = Ordering.lt) := by
  constructor <;> intro hb <;>
    rw [IdReg.cmp, Nat.compare_eq_lt] <;>
    simp only [IdReg.new_standard, IdReg.new_extended] <;>
    [exact Nat.add_lt_add_right (Nat.mul_lt_mul_of_lt_of_le hab (le_refl _) (by norm_num)) 2;
     exact Nat.mul_lt_mul_of_lt_of_le hab (le_refl _) (by norm_num)]

/-- Witness for C4 at a = 0, b = 1 in both formats. -/
theorem idreg_new_strict_mono_witness :
    IdReg.cmp (IdReg.new_standard 0) (IdReg.new_standard 1) = Ordering.lt ∧
    IdReg.cmp (IdReg.new_extended 0) (IdReg.new_extended 1) = Ordering.lt :=
  ⟨(idreg_new_strict_mono 0 1 (by norm_num)).1 (by norm_num),
   (idreg_new_strict_mono 0 1 (by norm_num)).2 (by norm_num)⟩

/-- Setting or clearing the RTR bit is faithfully read back by `rtr`. -/
theorem IdReg.rtr_with_rtr (r : IdReg) (b : Bool) : (r.with_rtr b).rtr = b := by
  cases b <;> simp [IdReg.with_rtr, IdReg.rtr] <;> omega

/-- Both register constructors leave the RTR bit at 0 (data frame). -/
theorem IdReg.rtr_fromId (i : Id) : (IdReg.fromId i).rtr = false := by
  cases i <;> simp [IdReg.fromId, IdReg.new_standard, IdReg.new_extended, IdReg.rtr] <;>
    omega

/-- C5: `new_remote` succeeds exactly when the requested DLC is in 0..=7 and
fails when it is 8 or more; a successfully built frame is a remote frame,
reports the requested DLC, and exposes no payload. -/
theorem frame_new_remote_spec (i : Id) (dlc : Nat) :
    ((Frame.new_remote i dlc).isSome ↔ dlc ≤ 7) ∧
    (∀ f : Frame, Frame.new_remote i dlc = some f →
      f.is_remote_frame = true ∧ f.dlc = dlc ∧ f.getData = none) := by
  constructor
  · rw [Frame.new_remote]
    split
    · simpa using by omega
    · simpa using by omega
  · intro f hf
    rw [Frame.new_remote] at hf
    split at hf
    · exact absurd hf (by simp)
    · cases Option.some.inj hf
      refine ⟨?_, rfl, ?_⟩
      · exact IdReg.rtr_with_rtr _ true
      · rw [Frame.getData, if_neg]
        simp [Frame.is_data_frame, Frame.is_remote_frame, Frame.new_data,
          IdReg.rtr_with_rtr]

/-- Witness for C5 at a standard identifier and DLC 3: the success
condition holds and the resulting concrete frame is a remote frame with
DLC 3 and no payload. -/
theorem frame_new_remote_spec_witness :
    ((Frame.new_remote (Id.standard 5) 3).isSome ↔ 3 ≤ 7) ∧
    (Frame.mk ⟨5242883⟩ ⟨3, List.replicate 8 0⟩).is_remote_frame = true ∧
    (Frame.mk ⟨5242883⟩ ⟨3, List.replicate 8 0⟩).dlc = 3 ∧
    (Frame.mk ⟨5242883⟩ ⟨3, List.replicate 8 0⟩).getData = none :=
  ⟨(frame_new_remote_spec (Id.standard 5) 3).1,
   (frame_new_remote_spec (Id.standard 5) 3).2 _ (by decide)⟩

/-- C6: `new_data` always succeeds (it is total), and the built frame is a
data frame whose DLC equals the payload length and whose payload accessor
returns exactly the given payload; the RTR bit is left at data (0). -/
theorem frame_new_data_spec (i : Id) (d : Data) :
    (Frame.new_data i d).is_data_frame = true ∧
    (Frame.new_data i d).dlc = d.len ∧
    (Frame.new_data i d).getData = some d := by
  have hrtr : (Frame.new_data i d).is_remote_frame = false := by
    rw [Frame.is_remote_frame, Frame.new_data]
    exact IdReg.rtr_fromId i
  have hdf : (Frame.new_data i d).is_data_frame = true := by
    simp [Frame.is_data_frame, hrtr]
  refine ⟨hdf, rfl, ?_⟩
  simp only [Frame.getData, hdf]
  simp only [if_true]
  rfl

/-- C7: `Data::new` returns a populated value whose length is that of the input and a
read view equal to the input bytes when the length is at most 8, and fails
with no partial result when the length is 9 or more. -/
theorem data_new_spec (bs : List Nat) :
    (bs.length ≤ 8 →
      ∃ d : Data, Data.new bs = some d ∧ d.len = bs.length ∧ d.deref = bs) ∧
    (bs.length ≥ 9 → Data.new bs = none) := by
  constructor
  · intro h
    rw [Data.new, if_neg (by omega)]
    exact ⟨_, rfl, rfl, List.take_left bs _⟩
  · intro h
    rw [Data.new, if_pos (by omega)]

/-- Witness for C7 at a 3-byte slice (success) and a 9-byte slice (failure). -/
theorem data_new_spec_witness :
    (∃ d : Data, Data.new [1, 2, 3] = some d ∧ d.len = 3 ∧ d.deref = [1, 2, 3]) ∧
    Data.new [0, 1, 2, 3, 4, 5, 6, 7, 8] = none :=
  ⟨(data_new_spec [1, 2, 3]).1 (by decide),
   (data_new_spec [0, 1, 2, 3, 4, 5, 6, 7, 8]).2 (by decide)⟩

/-- C8: the infallible fixed-length-array conversion into `Data` is
lossless: for an array of length at most 8 the `len` of the result is the array
length and its read view is exactly the original array. -/
theorem data_fromArray_roundtrip (arr : List Nat) (h : arr.length ≤ 8) :
    (Data.fromArray arr).len = arr.length ∧ (Data.fromArray arr).deref = arr :=
  ⟨rfl, List.take_left arr _⟩

/-- Witness for C8 at the array [4, 5, 6]. -/
theorem data_fromArray_roundtrip_witness :
    (Data.fromArray [4, 5, 6]).len = 3 ∧ (Data.fromArray [4, 5, 6]).deref = [4, 5, 6] :=
  data_fromArray_roundtrip [4, 5, 6] (by decide)

/-- C9: two `Data` values are equal exactly when their length-bounded views
hold the same bytes in the same order, and the unused tail of the backing
buffer never influences equality (two values with the same length and the
same first bytes are equal whatever their tails hold). -/
theorem data_beq_iff_views (a b : Data) :
    (Data.beq a b = true ↔ a.deref = b.deref) ∧
    (∀ (n : Nat) (pre t1 t2 : List Nat), pre.length = n →
      Data.beq ⟨n, pre ++ t1⟩ ⟨n, pre ++ t2⟩ = true) := by
  constructor
  · simp [Data.beq]
  · intro n pre t1 t2 hlen
    subst hlen
    simp [Data.beq, Data.deref, List.take_left]

/-- Witness for C9: two payloads differing only past their length are
equal. -/
theorem data_beq_iff_views_witness :
    (Data.beq ⟨1, [7, 0]⟩ ⟨1, [7, 9]⟩ = true ↔
      Data.deref ⟨1, [7, 0]⟩ = Data.deref ⟨1, [7, 9]⟩) ∧
    Data.beq ⟨2, [1, 2] ++ [3]⟩ ⟨2, [1, 2] ++ [4]⟩ = true :=
  ⟨(data_beq_iff_views ⟨1, [7, 0]⟩ ⟨1, [7, 9]⟩).1,
   (data_beq_iff_views ⟨1, [7, 0]⟩ ⟨1, [7, 9]⟩).2 2 [1, 2] [3] [4] rfl⟩

/-- C10: every public constructor (`Data::new`, `Data::empty`, the
`From` array conversions for lengths 0..=8) establishes the invariant
`len <= 8` over the 8-byte buffer, a store through the bounded write view
preserves it and cannot change `len`, and under the invariant the read view
is exactly `len` bytes long (so the slice is in bounds). -/
theorem data_wf_invariant (bs arr : List Nat) (d : Data) (i v : Nat)
    (harr : arr.length ≤ 8) (hwf : Data.WF d) :
    (∀ d2 : Data, Data.new bs = some d2 → Data.WF d2) ∧
    Data.WF Data.empty ∧
    Data.WF (Data.fromArray arr) ∧
    Data.WF (Data.set_via_view d i v) ∧
    (Data.set_via_view d i v).len = d.len ∧
    d.deref.length = d.len := by
  obtain ⟨hlen, hbytes⟩ := hwf
  refine ⟨?_, ⟨by decide, by decide⟩, ⟨harr, ?_⟩, ?_, ?_, ?_⟩
  · intro d2 hd2
    rw [Data.new] at hd2
    split at hd2
    · exact absurd hd2 (by simp)
    · cases Option.some.inj hd2
      refine ⟨?_, ?_⟩
      · show bs.length ≤ 8
        omega
      · show (bs ++ List.replicate (8 - bs.length) 0).length = 8
        simp only [List.length_append, List.length_replicate]
        omega
  · simp only [Data.fromArray, List.length_append, List.length_replicate]
    omega
  · rw [Data.set_via_view]
    split
    · exact ⟨hlen, by simpa using hbytes⟩
    · exact ⟨hlen, hbytes⟩
  · rw [Data.set_via_view]
    split <;> rfl
  · rw [Data.deref, List.length_take]
    omega

/-- Witness for C10 at `Data::new [1]`, the array [2, 3], and a store at
index 0 of the empty payload. -/
theorem data_wf_invariant_witness :
    Data.WF ⟨1, [1, 0, 0, 0, 0, 0, 0, 0]⟩ ∧
    Data.WF Data.empty ∧
    Data.WF (Data.fromArray [2, 3]) ∧
    Data.WF (Data.set_via_view Data.empty 0 5) ∧
    (Data.set_via_view Data.empty 0 5).len = Data.empty.len ∧
    (Data.deref Data.empty).length = Data.empty.len := by
  have t := data_wf_invariant [1] [2, 3] Data.empty 0 5 (by decide)
    ⟨by decide, by decide⟩
  exact ⟨t.1 ⟨1, [1, 0, 0, 0, 0, 0, 0, 0]⟩ (by rfl), t.2.1, t.2.2.1, t.2.2.2.1,
    t.2.2.2.2.1, t.2.2.2.2.2⟩

end Bxcan
